import Mathlib

/-!
Verification of the go-httpstat timing recorder.

The Go package records timestamps of `net/http/httptrace` lifecycle hooks in
a `Result` struct and derives phase durations and cumulative timeline
markers from them.

Shallow embedding conventions:
* `time.Time` is modelled as `Nat`: `0` is Go's zero `time.Time`
  (`IsZero`), and a clock reading produced by `time.Now()` is a positive
  instant.  Within one callback body every clock read (`time.Now()` /
  `time.Since`) observes the same instant, passed to the hook as `now`.
* `time.Duration` is modelled as `Int` (the Go type is an `int64` count of
  nanoseconds), so subtraction can in principle go negative, exactly as in
  Go.
* Each httptrace hook of `withClientTrace` becomes a pure function
  `Result → ... → Result` on the record.
-/

namespace Httpstat

/-- The `Result` struct of httpstat.go.  Duration fields are `Int`
(nanoseconds), `time.Time` fields are `Nat` instants with `0` for the Go
zero time.  Field names and order follow the Go declaration; all fields
start at Go zero values. -/
structure Result where
  DNSLookup : Int := 0
  TCPConnection : Int := 0
  TLSHandshake : Int := 0
  ServerProcessing : Int := 0
  contentTransfer : Int := 0
  NameLookup : Int := 0
  Connect : Int := 0
  Pretransfer : Int := 0
  StartTransfer : Int := 0
  total : Int := 0
  t0 : Nat := 0
  t1 : Nat := 0
  t2 : Nat := 0
  t3 : Nat := 0
  t4 : Nat := 0
  t5 : Nat := 0
  dnsStart : Nat := 0
  tcpStart : Nat := 0
  tlsStart : Nat := 0
  serverStart : Nat := 0
  serverDone : Nat := 0
  transferStart : Nat := 0
  isTLS : Bool := false
  isReused : Bool := false
deriving Repr, DecidableEq

/-- The Go zero value `var result httpstat.Result`. -/
def Result.init : Result := {}

/-- Hook `DNSStart`: `r.dnsStart = time.Now()`. -/
def Result.dnsStartHook (r : Result) (now : Nat) : Result :=
  { r with dnsStart := now }

/-- Hook `DNSDone`: `r.DNSLookup = time.Since(r.dnsStart)` and
`r.NameLookup = time.Since(r.dnsStart)`. -/
def Result.dnsDoneHook (r : Result) (now : Nat) : Result :=
  { r with DNSLookup := (now : Int) - (r.dnsStart : Int),
           NameLookup := (now : Int) - (r.dnsStart : Int) }

/-- Hook `ConnectStart`: `r.tcpStart = time.Now()`, then, when connecting
to an IP directly (no DNS lookup), `if r.dnsStart.IsZero() then
r.dnsStart = r.tcpStart`. -/
def Result.connectStartHook (r : Result) (now : Nat) : Result :=
  let r1 := { r with tcpStart := now }
  if r1.dnsStart = 0 then { r1 with dnsStart := r1.tcpStart } else r1

/-- Hook `ConnectDone`: `r.TCPConnection = time.Since(r.tcpStart)`,
`r.Connect = time.Since(r.dnsStart)`. -/
def Result.connectDoneHook (r : Result) (now : Nat) : Result :=
  { r with TCPConnection := (now : Int) - (r.tcpStart : Int),
           Connect := (now : Int) - (r.dnsStart : Int) }

/-- Hook `TLSHandshakeStart`: `r.isTLS = true`, `r.tlsStart = time.Now()`. -/
def Result.tlsHandshakeStartHook (r : Result) (now : Nat) : Result :=
  { r with isTLS := true, tlsStart := now }

/-- Hook `TLSHandshakeDone`: `r.TLSHandshake = time.Since(r.tlsStart)`,
`r.Pretransfer = time.Since(r.dnsStart)`. -/
def Result.tlsHandshakeDoneHook (r : Result) (now : Nat) : Result :=
  { r with TLSHandshake := (now : Int) - (r.tlsStart : Int),
           Pretransfer := (now : Int) - (r.dnsStart : Int) }

/-- Hook `GotConn`: `if i.Reused then r.isReused = true`. -/
def Result.gotConnHook (r : Result) (reused : Bool) : Result :=
  if reused then { r with isReused := true } else r

/-- Hook `WroteRequest`: captures `r.serverStart = time.Now()`, then
applies, in order: the degraded-client backfill (`dnsStart` and `tcpStart`
both zero), the connection-reuse collapse (`isReused`), and the non-TLS
correction (`TLSHandshake = 0`, `Pretransfer = r.Connect` unless
`isTLS`). -/
def Result.wroteRequestHook (r : Result) (now : Nat) : Result :=
  let r1 := { r with serverStart := now }
  let r2 := if r1.dnsStart = 0 ∧ r1.tcpStart = 0 then
      { r1 with dnsStart := r1.serverStart, tcpStart := r1.serverStart }
    else r1
  let r3 := if r2.isReused then
      { r2 with dnsStart := r2.serverStart, tcpStart := r2.serverStart,
                tlsStart := r2.serverStart }
    else r2
  if r3.isTLS then r3
  else { r3 with TLSHandshake := 0, Pretransfer := r3.Connect }

/-- Hook `GotFirstResponseByte`: `r.serverDone = time.Now()`,
`r.ServerProcessing = time.Since(r.serverStart)`,
`r.transferStart = time.Now()`,
`r.StartTransfer = time.Since(r.dnsStart)`. -/
def Result.gotFirstResponseByteHook (r : Result) (now : Nat) : Result :=
  { r with serverDone := now,
           ServerProcessing := (now : Int) - (r.serverStart : Int),
           transferStart := now,
           StartTransfer := (now : Int) - (r.dnsStart : Int) }

/-- The `End(t time.Time)` method.  `t` is the caller's argument; `clk` is
the instant `time.Now()` observed by the two `time.Since` calls in the
body.  The body never reads `t`: when `r.dnsStart` is the zero time the
method returns with no mutation, otherwise it stores
`r.contentTransfer = time.Since(r.transferStart)` and
`r.total = time.Since(r.dnsStart)`. -/
def Result.End (r : Result) (t : Nat) (clk : Nat) : Result :=
  if r.dnsStart = 0 then r
  else { r with contentTransfer := (clk : Int) - (r.transferStart : Int),
                total := (clk : Int) - (r.dnsStart : Int) }

/-- The `ContentTransfer()` accessor: when `r.contentTransfer == 0` it
returns `time.Since(r.serverDone)` (live estimate, `clk` is the clock at
the call), otherwise the stored value. -/
def Result.ContentTransfer (r : Result) (clk : Nat) : Int :=
  if r.contentTransfer = 0 then (clk : Int) - (r.serverDone : Int)
  else r.contentTransfer

/-- The `Total()` accessor: when `r.total == 0` it returns
`time.Since(r.dnsStart)` (live estimate), otherwise the stored value. -/
def Result.Total (r : Result) (clk : Nat) : Int :=
  if r.total = 0 then (clk : Int) - (r.dnsStart : Int)
  else r.total

/-- The `Until(t time.Time)` accessor: `t.Sub(r.dnsStart)`. -/
def Result.Until (r : Result) (t : Nat) : Int :=
  (t : Int) - (r.dnsStart : Int)

/-- Conversion of a nanosecond duration to whole milliseconds:
Go's `int(d / time.Millisecond)` truncates toward zero. -/
def msOf (d : Int) : Int := Int.tdiv d 1000000

/-- The `durations()` method: the map literal as an association list in
source order.  Go map iteration order is unspecified, so only which value
each key is bound to is meaningful.  Note the source binds the key
`"Pretransfer"` to the field `r.Connect`, not to `r.Pretransfer`. -/
def Result.durations (r : Result) : List (String × Int) :=
  [("DNSLookup", r.DNSLookup),
   ("TCPConnection", r.TCPConnection),
   ("TLSHandshake", r.TLSHandshake),
   ("ServerProcessing", r.ServerProcessing),
   ("ContentTransfer", r.contentTransfer),
   ("NameLookup", r.NameLookup),
   ("Connect", r.Connect),
   ("Pretransfer", r.Connect),
   ("StartTransfer", r.StartTransfer),
   ("Total", r.total)]

/-- Left-pad a string with spaces to width `w`, as `%4d` / `%4s` do. -/
def padLeft (w : Nat) (s : String) : String :=
  String.mk (List.replicate (w - s.length) ' ') ++ s

/-- Render a duration as `fmt.Fprintf("%4d", int(d/time.Millisecond))`. -/
def fmt4 (d : Int) : String := padLeft 4 (toString (msOf d))

/-- The `Content transfer` line of the `%+v` rendering: the number when
`r.total > 0`, otherwise the `-` marker via `%4s`. -/
def Result.contentTransferLine (r : Result) : String :=
  if 0 < r.total then "Content transfer:  " ++ fmt4 r.contentTransfer ++ " ms\n\n"
  else "Content transfer:  " ++ padLeft 4 "-" ++ " ms\n\n"

/-- The `Total` line of the `%+v` rendering: the number when
`r.total > 0`, otherwise the `-` marker via `%4s`. -/
def Result.totalLine (r : Result) : String :=
  if 0 < r.total then "Total:          " ++ fmt4 r.total ++ " ms\n"
  else "Total:          " ++ padLeft 4 "-" ++ " ms\n"

/-- The full fixed-width `%+v` rendering of `Format`. -/
def Result.formatVerbose (r : Result) : String :=
  "DNS lookup:        " ++ fmt4 r.DNSLookup ++ " ms\n" ++
  "TCP connection:    " ++ fmt4 r.TCPConnection ++ " ms\n" ++
  "TLS handshake:     " ++ fmt4 r.TLSHandshake ++ " ms\n" ++
  "Server processing: " ++ fmt4 r.ServerProcessing ++ " ms\n" ++
  r.contentTransferLine ++
  "Name Lookup:    " ++ fmt4 r.NameLookup ++ " ms\n" ++
  "Connect:        " ++ fmt4 r.Connect ++ " ms\n" ++
  "Pre Transfer:   " ++ fmt4 r.Pretransfer ++ " ms\n" ++
  "Start Transfer: " ++ fmt4 r.StartTransfer ++ " ms\n" ++
  r.totalLine

/-- One entry of the compact (`%s` / `%q`) rendering: for the keys
`ContentTransfer` and `Total`, when `r.t5.IsZero()` (End is deemed not
called) the entry is the `-` marker, otherwise `key: value ms`. -/
def Result.compactEntry (r : Result) (kv : String × Int) : String :=
  if (kv.1 = "ContentTransfer" ∨ kv.1 = "Total") ∧ r.t5 = 0 then
    kv.1 ++ ": - ms"
  else kv.1 ++ ": " ++ toString (msOf kv.2) ++ " ms"

/-- The entries of the compact rendering, in the order of the map
literal (Go iterates the map in unspecified order). -/
def Result.formatCompactList (r : Result) : List String :=
  r.durations.map r.compactEntry

/-- The compact rendering joined with `", "` as `strings.Join` does. -/
def Result.formatCompact (r : Result) : String :=
  String.intercalate ", " r.formatCompactList

/-- One firing of a lifecycle callback, tagged with the clock instant the
callback body observes (`gotConnEv` reads no clock; `endEv` carries the
caller's explicit argument and the clock instant of the call). -/
inductive TraceEvent where
  | dnsStartEv (now : Nat)
  | dnsDoneEv (now : Nat)
  | connectStartEv (now : Nat)
  | connectDoneEv (now : Nat)
  | tlsStartEv (now : Nat)
  | tlsDoneEv (now : Nat)
  | gotConnEv (reused : Bool)
  | wroteRequestEv (now : Nat)
  | firstByteEv (now : Nat)
  | endEv (t : Nat) (clk : Nat)
deriving Repr, DecidableEq

/-- Dispatch one event to the corresponding `Result` operation. -/
def applyEvent (r : Result) : TraceEvent → Result
  | .dnsStartEv n => r.dnsStartHook n
  | .dnsDoneEv n => r.dnsDoneHook n
  | .connectStartEv n => r.connectStartHook n
  | .connectDoneEv n => r.connectDoneHook n
  | .tlsStartEv n => r.tlsHandshakeStartHook n
  | .tlsDoneEv n => r.tlsHandshakeDoneHook n
  | .gotConnEv b => r.gotConnHook b
  | .wroteRequestEv n => r.wroteRequestHook n
  | .firstByteEv n => r.gotFirstResponseByteHook n
  | .endEv t c => r.End t c

/-- Run a sequence of callback firings from a given state. -/
def runFrom (r : Result) (es : List TraceEvent) : Result :=
  es.foldl applyEvent r

/-- Run a sequence of callback firings from the Go zero value. -/
def run (es : List TraceEvent) : Result := runFrom Result.init es

/-- The clock instant an event's callback body observes, if any. -/
def TraceEvent.instant : TraceEvent → Option Nat
  | .dnsStartEv n => some n
  | .dnsDoneEv n => some n
  | .connectStartEv n => some n
  | .connectDoneEv n => some n
  | .tlsStartEv n => some n
  | .tlsDoneEv n => some n
  | .gotConnEv _ => none
  | .wroteRequestEv n => some n
  | .firstByteEv n => some n
  | .endEv _ c => some c

/-- Checks that the clock instants along an event sequence are
non-decreasing and bounded below by `b` (real `time.Now()` readings are
never Go's zero time, so a well-formed sequence uses `b = 1`). -/
def instantsLB (b : Nat) : List TraceEvent → Bool
  | [] => true
  | e :: es =>
    match e.instant with
    | none => instantsLB b es
    | some t => decide (b ≤ t) && instantsLB t es

/-- A callback sequence respecting the ordering guarantee: optional DNS
start/done pair, then optional connect start/done pair, then optional TLS
start/done pair, then optional connection-obtained notification, then
request-written, then first-response-byte, then optional finalize.  Each
`Option` field set to `none` means the phase is entirely absent. -/
structure HookTrace where
  dns : Option (Nat × Nat) := none
  conn : Option (Nat × Nat) := none
  tls : Option (Nat × Nat) := none
  got : Option Bool := none
  wrote : Nat
  firstByte : Nat
  fin : Option (Nat × Nat) := none
deriving Repr, DecidableEq

/-- The start/done event pair of an optional phase. -/
def optPhase (f g : Nat → TraceEvent) : Option (Nat × Nat) → List TraceEvent
  | none => []
  | some (a, b) => [f a, g b]

/-- The events of a trace up to and including the request-written
callback. -/
def HookTrace.eventsToWrote (tr : HookTrace) : List TraceEvent :=
  optPhase .dnsStartEv .dnsDoneEv tr.dns ++
  optPhase .connectStartEv .connectDoneEv tr.conn ++
  optPhase .tlsStartEv .tlsDoneEv tr.tls ++
  (match tr.got with | none => [] | some b => [.gotConnEv b]) ++
  [.wroteRequestEv tr.wrote]

/-- All events of a trace, in the guaranteed temporal order. -/
def HookTrace.events (tr : HookTrace) : List TraceEvent :=
  tr.eventsToWrote ++ [.firstByteEv tr.firstByte] ++
  (match tr.fin with | none => [] | some (t, c) => [.endEv t c])

/-- A trace is well ordered when its clock instants are positive and
non-decreasing. -/
def HookTrace.WellOrdered (tr : HookTrace) : Bool :=
  instantsLB 1 tr.events

/-- Every raw timestamp field of `r` is at most `b`. -/
def StampsLE (r : Result) (b : Nat) : Prop :=
  r.dnsStart ≤ b ∧ r.tcpStart ≤ b ∧ r.tlsStart ≤ b ∧
  r.serverStart ≤ b ∧ r.serverDone ≤ b ∧ r.transferStart ≤ b

/-- Every derived duration field of `r` is non-negative. -/
def DursNonneg (r : Result) : Prop :=
  0 ≤ r.DNSLookup ∧ 0 ≤ r.TCPConnection ∧ 0 ≤ r.TLSHandshake ∧
  0 ≤ r.ServerProcessing ∧ 0 ≤ r.contentTransfer ∧ 0 ≤ r.NameLookup ∧
  0 ≤ r.Connect ∧ 0 ≤ r.Pretransfer ∧ 0 ≤ r.StartTransfer ∧ 0 ≤ r.total

instance (r : Result) (b : Nat) : Decidable (StampsLE r b) := by
  unfold StampsLE; infer_instance

instance (r : Result) : Decidable (DursNonneg r) := by
  unfold DursNonneg; infer_instance

/-- True when the sequence contains no `End` call. -/
def noEndCalled (es : List TraceEvent) : Bool :=
  es.all fun e => match e with | .endEv _ _ => false | _ => true

/-- Scenario A of the spec: fresh TLS connection, no reuse, finalized. -/
def scenarioA : HookTrace :=
  { dns := some (1, 11), conn := some (11, 31), tls := some (31, 61),
    got := some false, wrote := 61, firstByte := 111, fin := some (151, 151) }

/-- Scenario B of the spec: reused keep-alive connection, no DNS, connect
or TLS events. -/
def scenarioB : HookTrace :=
  { got := some true, wrote := 3, firstByte := 4 }

/-- Scenario C of the spec: plaintext request over a fresh connection, no
TLS events. -/
def scenarioC : HookTrace :=
  { dns := some (1, 11), conn := some (11, 31), got := some false,
    wrote := 40, firstByte := 50, fin := some (60, 60) }

/-- A direct-IP request: no DNS phase, connect-start fires first. -/
def directIPTrace : HookTrace :=
  { conn := some (5, 9), wrote := 12, firstByte := 20 }

/-- A degraded-client request up to the first response byte, with `End`
not yet called. -/
def preEndEvents : List TraceEvent := [.wroteRequestEv 2, .firstByteEv 3]

/-- A finalized request whose `End` ran at the very instant the first
response byte arrived, storing `contentTransfer = 0`. -/
def zeroTransferResult : Result :=
  run [.wroteRequestEv 2, .firstByteEv 3, .endEv 3 3]

/-- A finalized request whose stored `contentTransfer` and `total` are
both non-zero. -/
def finishedResult : Result :=
  run [.wroteRequestEv 2, .firstByteEv 3, .endEv 20 20]

/-!  Helper lemmas. -/

/-- One callback firing at an instant no smaller than every stored
timestamp keeps all timestamps bounded by the new instant and all derived
durations non-negative. -/
lemma step_inv (e : TraceEvent) (r : Result) (b : Nat)
    (hs : StampsLE r b) (hd : DursNonneg r)
    (hle : ∀ t, e.instant = some t → b ≤ t) :
    StampsLE (applyEvent r e) (e.instant.getD b) ∧ DursNonneg (applyEvent r e) := by
  obtain ⟨s1, s2, s3, s4, s5, s6⟩ := hs
  obtain ⟨d1, d2, d3, d4, d5, d6, d7, d8, d9, d10⟩ := hd
  cases e with
  | dnsStartEv n =>
    have hb := hle n rfl
    simp [applyEvent, Result.dnsStartHook, TraceEvent.instant, StampsLE, DursNonneg]
    omega
  | dnsDoneEv n =>
    have hb := hle n rfl
    simp [applyEvent, Result.dnsDoneHook, TraceEvent.instant, StampsLE, DursNonneg]
    omega
  | connectStartEv n =>
    have hb := hle n rfl
    simp [applyEvent, Result.connectStartHook, TraceEvent.instant, StampsLE, DursNonneg]
    split <;> (try simp) <;> omega
  | connectDoneEv n =>
    have hb := hle n rfl
    simp [applyEvent, Result.connectDoneHook, TraceEvent.instant, StampsLE, DursNonneg]
    omega
  | tlsStartEv n =>
    have hb := hle n rfl
    simp [applyEvent, Result.tlsHandshakeStartHook, TraceEvent.instant, StampsLE, DursNonneg]
    omega
  | tlsDoneEv n =>
    have hb := hle n rfl
    simp [applyEvent, Result.tlsHandshakeDoneHook, TraceEvent.instant, StampsLE, DursNonneg]
    omega
  | gotConnEv c =>
    simp [applyEvent, Result.gotConnHook, TraceEvent.instant, StampsLE, DursNonneg]
    split <;> (try simp) <;> omega
  | wroteRequestEv n =>
    have hb := hle n rfl
    by_cases h1 : r.dnsStart = 0 ∧ r.tcpStart = 0 <;>
      by_cases h2 : r.isReused <;>
      by_cases h3 : r.isTLS <;>
      simp [applyEvent, Result.wroteRequestHook, TraceEvent.instant, StampsLE,
        DursNonneg, h1, h2, h3] <;>
      omega
  | firstByteEv n =>
    have hb := hle n rfl
    simp [applyEvent, Result.gotFirstResponseByteHook, TraceEvent.instant, StampsLE,
      DursNonneg]
    omega
  | endEv t c =>
    have hb := hle c rfl
    simp [applyEvent, Result.End, TraceEvent.instant, StampsLE, DursNonneg]
    split <;> (try simp) <;> omega

/-- Running any initial segment of a well-ordered callback sequence from a
state satisfying the invariant keeps every derived duration non-negative. -/
lemma take_inv (es : List TraceEvent) : ∀ (r : Result) (b n : Nat),
    instantsLB b es = true → StampsLE r b → DursNonneg r →
    DursNonneg (runFrom r (es.take n)) := by
  induction es with
  | nil =>
    intro r b n _ _ hd
    simpa [runFrom] using hd
  | cons e es ih =>
    intro r b n hlb hs hd
    cases n with
    | zero => simpa [runFrom] using hd
    | succ m =>
      cases he : e.instant with
      | none =>
        have hlb' : instantsLB b es = true := by
          simpa [instantsLB, he] using hlb
        have hstep := step_inv e r b hs hd (by intro t ht; rw [he] at ht; cases ht)
        rw [he] at hstep
        simp only [List.take_succ_cons, runFrom, List.foldl_cons]
        exact ih (applyEvent r e) b m hlb' hstep.1 hstep.2
      | some t =>
        have hpair : (decide (b ≤ t) && instantsLB t es) = true := by
          simpa [instantsLB, he] using hlb
        rw [Bool.and_eq_true, decide_eq_true_eq] at hpair
        have hstep := step_inv e r b hs hd
          (by intro u hu; rw [he] at hu; cases hu; exact hpair.1)
        rw [he] at hstep
        simp only [List.take_succ_cons, runFrom, List.foldl_cons]
        exact ih (applyEvent r e) t m hpair.2 hstep.1 hstep.2

/-!  Claim theorems. -/

/-- Claim C1: for every callback sequence respecting the ordering
guarantee (optional DNS, connect and TLS phases, optional
connection-obtained notification, request-written, first-response-byte,
optional finalize, with positive non-decreasing clock instants), every
derived duration field of the `Result` — `DNSLookup`, `TCPConnection`,
`TLSHandshake`, `ServerProcessing`, `contentTransfer`, `NameLookup`,
`Connect`, `Pretransfer`, `StartTransfer`, `total` — is non-negative
after every callback, i.e. after running every initial segment of the
sequence. -/
theorem c1_durations_nonneg (tr : HookTrace) (h : tr.WellOrdered = true) (n : Nat) :
    DursNonneg (run (tr.events.take n)) :=
  take_inv tr.events Result.init 1 n h (by decide) (by decide)

/-- Witness for C1: Scenario A of the spec is well ordered, and after its
first five callbacks every duration is non-negative. -/
theorem c1_witness :
    scenarioA.WellOrdered = true ∧ DursNonneg (run (scenarioA.events.take 5)) :=
  ⟨by decide, c1_durations_nonneg scenarioA (by decide) 5⟩

/-- The request-written hook on a reused connection overwrites `dnsStart`,
`tcpStart` and `tlsStart` with the captured `serverStart` instant. -/
lemma wroteRequest_reused (r : Result) (w : Nat) (h : r.isReused = true) :
    (r.wroteRequestHook w).dnsStart = w ∧ (r.wroteRequestHook w).tcpStart = w ∧
    (r.wroteRequestHook w).tlsStart = w ∧ (r.wroteRequestHook w).serverStart = w := by
  unfold Result.wroteRequestHook
  by_cases h1 : r.dnsStart = 0 ∧ r.tcpStart = 0 <;>
    by_cases h3 : r.isTLS <;>
    simp [h, h1, h3]

/-- The request-written hook on a non-TLS connection forces
`TLSHandshake = 0` and copies `Connect` into `Pretransfer`. -/
lemma wroteRequest_noTLS (r : Result) (w : Nat) (h : r.isTLS = false) :
    (r.wroteRequestHook w).TLSHandshake = 0 ∧
    (r.wroteRequestHook w).Pretransfer = (r.wroteRequestHook w).Connect := by
  unfold Result.wroteRequestHook
  by_cases h1 : r.dnsStart = 0 ∧ r.tcpStart = 0 <;>
    by_cases h2 : r.isReused <;>
    simp [h, h1, h2]

/-- No event other than the TLS-handshake-start hook changes `isTLS`. -/
lemma applyEvent_isTLS (r : Result) (e : TraceEvent) (h : ∀ t, e ≠ .tlsStartEv t) :
    (applyEvent r e).isTLS = r.isTLS := by
  cases e with
  | tlsStartEv t => exact absurd rfl (h t)
  | gotConnEv b => simp [applyEvent, Result.gotConnHook, apply_ite Result.isTLS]
  | wroteRequestEv n =>
    unfold applyEvent Result.wroteRequestHook
    by_cases h1 : r.dnsStart = 0 ∧ r.tcpStart = 0 <;>
      by_cases h2 : r.isReused <;>
      by_cases h3 : r.isTLS <;>
      simp [h1, h2, h3]
  | endEv t c => simp [applyEvent, Result.End, apply_ite Result.isTLS]
  | dnsStartEv n => simp [applyEvent, Result.dnsStartHook]
  | dnsDoneEv n => simp [applyEvent, Result.dnsDoneHook]
  | connectStartEv n =>
    simp [applyEvent, Result.connectStartHook, apply_ite Result.isTLS]
  | connectDoneEv n => simp [applyEvent, Result.connectDoneHook]
  | tlsDoneEv n => simp [applyEvent, Result.tlsHandshakeDoneHook]
  | firstByteEv n => simp [applyEvent, Result.gotFirstResponseByteHook]

/-- Running a sequence with no TLS-handshake-start firing leaves `isTLS`
unchanged. -/
lemma runFrom_isTLS (es : List TraceEvent) : ∀ r : Result,
    (∀ t, TraceEvent.tlsStartEv t ∉ es) → (runFrom r es).isTLS = r.isTLS := by
  induction es with
  | nil => intro r _; rfl
  | cons e es ih =>
    intro r h
    have he : ∀ t, e ≠ TraceEvent.tlsStartEv t := by
      intro t ht; exact h t (ht ▸ List.mem_cons_self e es)
    have hes : ∀ t, TraceEvent.tlsStartEv t ∉ es := by
      intro t ht; exact h t (List.mem_cons_of_mem e ht)
    have hrest := ih (applyEvent r e) hes
    simp only [runFrom] at hrest
    simp only [runFrom, List.foldl_cons]
    rw [hrest, applyEvent_isTLS r e he]

/-- No event other than the DNS-done hook changes `DNSLookup` or
`NameLookup`. -/
lemma applyEvent_DNSLookup (r : Result) (e : TraceEvent)
    (h : ∀ t, e ≠ .dnsDoneEv t) :
    (applyEvent r e).DNSLookup = r.DNSLookup ∧
    (applyEvent r e).NameLookup = r.NameLookup := by
  cases e with
  | dnsDoneEv t => exact absurd rfl (h t)
  | gotConnEv b =>
    simp [applyEvent, Result.gotConnHook, apply_ite Result.DNSLookup,
      apply_ite Result.NameLookup]
  | wroteRequestEv n =>
    unfold applyEvent Result.wroteRequestHook
    by_cases h1 : r.dnsStart = 0 ∧ r.tcpStart = 0 <;>
      by_cases h2 : r.isReused <;>
      by_cases h3 : r.isTLS <;>
      simp [h1, h2, h3]
  | endEv t c =>
    simp [applyEvent, Result.End, apply_ite Result.DNSLookup,
      apply_ite Result.NameLookup]
  | dnsStartEv n => simp [applyEvent, Result.dnsStartHook]
  | connectStartEv n =>
    simp [applyEvent, Result.connectStartHook, apply_ite Result.DNSLookup,
      apply_ite Result.NameLookup]
  | connectDoneEv n => simp [applyEvent, Result.connectDoneHook]
  | tlsStartEv n => simp [applyEvent, Result.tlsHandshakeStartHook]
  | tlsDoneEv n => simp [applyEvent, Result.tlsHandshakeDoneHook]
  | firstByteEv n => simp [applyEvent, Result.gotFirstResponseByteHook]

/-- Running a sequence with no DNS-done firing leaves `DNSLookup` and
`NameLookup` unchanged. -/
lemma runFrom_DNSLookup (es : List TraceEvent) : ∀ r : Result,
    (∀ t, TraceEvent.dnsDoneEv t ∉ es) →
    (runFrom r es).DNSLookup = r.DNSLookup ∧
    (runFrom r es).NameLookup = r.NameLookup := by
  induction es with
  | nil => intro r _; exact ⟨rfl, rfl⟩
  | cons e es ih =>
    intro r h
    have he : ∀ t, e ≠ TraceEvent.dnsDoneEv t := by
      intro t ht; exact h t (ht ▸ List.mem_cons_self e es)
    have hes : ∀ t, TraceEvent.dnsDoneEv t ∉ es := by
      intro t ht; exact h t (List.mem_cons_of_mem e ht)
    have hstep := applyEvent_DNSLookup r e he
    have hrest := ih (applyEvent r e) hes
    simp only [runFrom, List.foldl_cons] at hrest ⊢
    exact ⟨hrest.1.trans hstep.1, hrest.2.trans hstep.2⟩

/-- Claim C2: after the request-written callback runs, if neither the
DNS-start nor the connect-start callback ever fired before it then
`dnsStart = tcpStart = serverStart` and `Connect = 0`; and if the
connection-obtained callback reported reuse then
`dnsStart = tcpStart = tlsStart = serverStart`. -/
theorem c2_collapse (tr : HookTrace) :
    ((tr.dns = none ∧ tr.conn = none) →
      ((run tr.eventsToWrote).dnsStart = (run tr.eventsToWrote).tcpStart ∧
       (run tr.eventsToWrote).tcpStart = (run tr.eventsToWrote).serverStart ∧
       (run tr.eventsToWrote).Connect = 0)) ∧
    (tr.got = some true →
      ((run tr.eventsToWrote).dnsStart = (run tr.eventsToWrote).tcpStart ∧
       (run tr.eventsToWrote).tcpStart = (run tr.eventsToWrote).tlsStart ∧
       (run tr.eventsToWrote).tlsStart = (run tr.eventsToWrote).serverStart)) := by
  constructor
  · rintro ⟨hd, hc⟩
    rcases htls : tr.tls with _ | ⟨a, b⟩ <;>
      rcases hgot : tr.got with _ | (_ | _) <;>
      simp [HookTrace.eventsToWrote, hd, hc, htls, hgot, optPhase, run, runFrom,
        applyEvent, Result.tlsHandshakeStartHook, Result.tlsHandshakeDoneHook,
        Result.gotConnHook, Result.wroteRequestHook, Result.init]
  · intro hg
    have hsplit : tr.eventsToWrote =
        (optPhase .dnsStartEv .dnsDoneEv tr.dns ++
         optPhase .connectStartEv .connectDoneEv tr.conn ++
         optPhase .tlsStartEv .tlsDoneEv tr.tls ++ [.gotConnEv true]) ++
        [.wroteRequestEv tr.wrote] := by
      simp [HookTrace.eventsToWrote, hg]
    have hreused :
        (run (optPhase .dnsStartEv .dnsDoneEv tr.dns ++
          optPhase .connectStartEv .connectDoneEv tr.conn ++
          optPhase .tlsStartEv .tlsDoneEv tr.tls ++ [.gotConnEv true])).isReused
          = true := by
      simp [run, runFrom, List.foldl_append, applyEvent, Result.gotConnHook]
    have hrun : run tr.eventsToWrote =
        (run (optPhase .dnsStartEv .dnsDoneEv tr.dns ++
          optPhase .connectStartEv .connectDoneEv tr.conn ++
          optPhase .tlsStartEv .tlsDoneEv tr.tls ++
          [.gotConnEv true])).wroteRequestHook tr.wrote := by
      rw [hsplit]; simp [run, runFrom, List.foldl_append, applyEvent]
    rw [hrun]
    obtain ⟨e1, e2, e3, e4⟩ := wroteRequest_reused _ tr.wrote hreused
    exact ⟨e1.trans e2.symm, e2.trans e3.symm, e3.trans e4.symm⟩

/-- Witness for C2: Scenario B (reused keep-alive trace with no DNS,
connect or TLS phase) satisfies both hypotheses, and after the
request-written callback all start timestamps coincide with `serverStart`
and `Connect` is zero. -/
theorem c2_witness :
    scenarioB.dns = none ∧ scenarioB.conn = none ∧ scenarioB.got = some true ∧
    ((run scenarioB.eventsToWrote).dnsStart =
      (run scenarioB.eventsToWrote).tcpStart ∧
     (run scenarioB.eventsToWrote).tcpStart =
      (run scenarioB.eventsToWrote).serverStart ∧
     (run scenarioB.eventsToWrote).Connect = 0 ∧
     (run scenarioB.eventsToWrote).tcpStart =
      (run scenarioB.eventsToWrote).tlsStart) := by
  have h := c2_collapse scenarioB
  have ha := h.1 ⟨rfl, rfl⟩
  have hb := h.2 rfl
  exact ⟨rfl, rfl, rfl, ha.1, ha.2.1, ha.2.2, hb.2.1⟩

/-- Claim C3: when the TLS-handshake-start callback never fires, after the
request-written callback `TLSHandshake = 0` and `Pretransfer = Connect`. -/
theorem c3_non_tls (tr : HookTrace) (h : tr.tls = none) :
    (run tr.eventsToWrote).TLSHandshake = 0 ∧
    (run tr.eventsToWrote).Pretransfer = (run tr.eventsToWrote).Connect := by
  have hsplit : tr.eventsToWrote =
      (optPhase .dnsStartEv .dnsDoneEv tr.dns ++
       optPhase .connectStartEv .connectDoneEv tr.conn ++
       (match tr.got with | none => [] | some b => [.gotConnEv b])) ++
      [.wroteRequestEv tr.wrote] := by
    simp [HookTrace.eventsToWrote, h, optPhase]
  have hnotls : ∀ t, TraceEvent.tlsStartEv t ∉
      (optPhase .dnsStartEv .dnsDoneEv tr.dns ++
       optPhase .connectStartEv .connectDoneEv tr.conn ++
       (match tr.got with | none => [] | some b => [.gotConnEv b])) := by
    rcases tr.dns with _ | ⟨a, b⟩ <;> rcases tr.conn with _ | ⟨c, d⟩ <;>
      rcases tr.got with _ | g <;> simp [optPhase]
  have hfalse :
      (run (optPhase .dnsStartEv .dnsDoneEv tr.dns ++
        optPhase .connectStartEv .connectDoneEv tr.conn ++
        (match tr.got with | none => [] | some b => [.gotConnEv b]))).isTLS
        = false := by
    simp only [run]
    rw [runFrom_isTLS _ _ hnotls]
    rfl
  have hrun : run tr.eventsToWrote =
      (run (optPhase .dnsStartEv .dnsDoneEv tr.dns ++
        optPhase .connectStartEv .connectDoneEv tr.conn ++
        (match tr.got with | none => [] | some b => [.gotConnEv b]))).wroteRequestHook
        tr.wrote := by
    rw [hsplit]; simp [run, runFrom, List.foldl_append, applyEvent]
  rw [hrun]
  exact wroteRequest_noTLS _ tr.wrote hfalse

/-- Witness for C3: Scenario C of the spec (plaintext request, fresh
connection, no TLS events). -/
theorem c3_witness :
    scenarioC.tls = none ∧
    (run scenarioC.eventsToWrote).TLSHandshake = 0 ∧
    (run scenarioC.eventsToWrote).Pretransfer =
      (run scenarioC.eventsToWrote).Connect := by
  have h := c3_non_tls scenarioC rfl
  exact ⟨rfl, h.1, h.2⟩

/-- Claim C4: when the connect-start callback fires while `dnsStart` is
still zero (no DNS phase: `tr.dns = none`, so connect-start is the first
event), afterwards `dnsStart` and `tcpStart` both equal the connect-start
instant, and `DNSLookup` and `NameLookup` stay zero after every callback
of the request. -/
theorem c4_anchor_backfill (tr : HookTrace) (cs cd : Nat)
    (h1 : tr.dns = none) (h2 : tr.conn = some (cs, cd)) :
    (run (tr.events.take 1)).dnsStart = cs ∧
    (run (tr.events.take 1)).tcpStart = cs ∧
    ∀ n, (run (tr.events.take n)).DNSLookup = 0 ∧
      (run (tr.events.take n)).NameLookup = 0 := by
  refine ⟨?_, ?_, ?_⟩
  · simp [HookTrace.events, HookTrace.eventsToWrote, h1, h2, optPhase, run,
      runFrom, applyEvent, Result.connectStartHook, Result.init]
  · simp [HookTrace.events, HookTrace.eventsToWrote, h1, h2, optPhase, run,
      runFrom, applyEvent, Result.connectStartHook, Result.init]
  · intro n
    have hnodns : ∀ t, TraceEvent.dnsDoneEv t ∉ tr.events := by
      rcases htl : tr.tls with _ | ⟨a, b⟩ <;> rcases hg : tr.got with _ | g <;>
        rcases hf : tr.fin with _ | ⟨ft, fc⟩ <;>
        simp [HookTrace.events, HookTrace.eventsToWrote, h1, h2, htl, hg, hf,
          optPhase]
    have hnotake : ∀ t, TraceEvent.dnsDoneEv t ∉ tr.events.take n := by
      intro t ht; exact hnodns t (List.take_subset n tr.events ht)
    have h := runFrom_DNSLookup (tr.events.take n) Result.init hnotake
    exact ⟨h.1, h.2⟩

/-- Witness for C4: a direct-IP trace with connect at instant 5. -/
theorem c4_witness :
    directIPTrace.dns = none ∧ directIPTrace.conn = some (5, 9) ∧
    (run (directIPTrace.events.take 1)).dnsStart = 5 ∧
    (run (directIPTrace.events.take 1)).tcpStart = 5 ∧
    (run (directIPTrace.events.take 3)).DNSLookup = 0 ∧
    (run (directIPTrace.events.take 3)).NameLookup = 0 := by
  have h := c4_anchor_backfill directIPTrace 5 9 rfl rfl
  exact ⟨rfl, rfl, h.1, h.2.1, (h.2.2 3).1, (h.2.2 3).2⟩

/-- Claim C5: calling `End` on a `Result` whose `dnsStart` is zero returns
without mutating any field — in particular `contentTransfer` and `total`
are not assigned — and, being total, raises nothing. -/
theorem c5_end_noop (r : Result) (t clk : Nat) (h : r.dnsStart = 0) :
    r.End t clk = r := by
  simp [Result.End, h]

/-- Witness for C5: the zero-valued `Result` has `dnsStart = 0` and `End`
leaves it untouched. -/
theorem c5_witness :
    Result.init.dnsStart = 0 ∧ Result.End Result.init 5 9 = Result.init :=
  ⟨rfl, c5_end_noop Result.init 5 9 rfl⟩

/-- No event changes `t5`: the package never assigns it. -/
lemma applyEvent_t5 (r : Result) (e : TraceEvent) : (applyEvent r e).t5 = r.t5 := by
  cases e with
  | gotConnEv b => simp [applyEvent, Result.gotConnHook, apply_ite Result.t5]
  | wroteRequestEv n =>
    unfold applyEvent Result.wroteRequestHook
    by_cases h1 : r.dnsStart = 0 ∧ r.tcpStart = 0 <;>
      by_cases h2 : r.isReused <;>
      by_cases h3 : r.isTLS <;>
      simp [h1, h2, h3]
  | endEv t c => simp [applyEvent, Result.End, apply_ite Result.t5]
  | dnsStartEv n => simp [applyEvent, Result.dnsStartHook]
  | dnsDoneEv n => simp [applyEvent, Result.dnsDoneHook]
  | connectStartEv n =>
    simp [applyEvent, Result.connectStartHook, apply_ite Result.t5]
  | connectDoneEv n => simp [applyEvent, Result.connectDoneHook]
  | tlsStartEv n => simp [applyEvent, Result.tlsHandshakeStartHook]
  | tlsDoneEv n => simp [applyEvent, Result.tlsHandshakeDoneHook]
  | firstByteEv n => simp [applyEvent, Result.gotFirstResponseByteHook]

/-- Running any event sequence leaves `t5` unchanged. -/
lemma runFrom_t5 (es : List TraceEvent) : ∀ r : Result,
    (runFrom r es).t5 = r.t5 := by
  induction es with
  | nil => intro r; rfl
  | cons e es ih =>
    intro r
    have hrest := ih (applyEvent r e)
    simp only [runFrom] at hrest
    simp only [runFrom, List.foldl_cons]
    rw [hrest, applyEvent_t5]

/-- No event other than an `End` call changes `total` or
`contentTransfer`. -/
lemma applyEvent_total_ct (r : Result) (e : TraceEvent)
    (h : ∀ t c, e ≠ .endEv t c) :
    (applyEvent r e).total = r.total ∧
    (applyEvent r e).contentTransfer = r.contentTransfer := by
  cases e with
  | endEv t c => exact absurd rfl (h t c)
  | gotConnEv b =>
    simp [applyEvent, Result.gotConnHook, apply_ite Result.total,
      apply_ite Result.contentTransfer]
  | wroteRequestEv n =>
    unfold applyEvent Result.wroteRequestHook
    by_cases h1 : r.dnsStart = 0 ∧ r.tcpStart = 0 <;>
      by_cases h2 : r.isReused <;>
      by_cases h3 : r.isTLS <;>
      simp [h1, h2, h3]
  | dnsStartEv n => simp [applyEvent, Result.dnsStartHook]
  | dnsDoneEv n => simp [applyEvent, Result.dnsDoneHook]
  | connectStartEv n =>
    simp [applyEvent, Result.connectStartHook, apply_ite Result.total,
      apply_ite Result.contentTransfer]
  | connectDoneEv n => simp [applyEvent, Result.connectDoneHook]
  | tlsStartEv n => simp [applyEvent, Result.tlsHandshakeStartHook]
  | tlsDoneEv n => simp [applyEvent, Result.tlsHandshakeDoneHook]
  | firstByteEv n => simp [applyEvent, Result.gotFirstResponseByteHook]

/-- Running a sequence without any `End` call leaves `total` and
`contentTransfer` unchanged. -/
lemma runFrom_total_ct (es : List TraceEvent) : ∀ r : Result,
    noEndCalled es = true →
    (runFrom r es).total = r.total ∧
    (runFrom r es).contentTransfer = r.contentTransfer := by
  induction es with
  | nil => intro r _; exact ⟨rfl, rfl⟩
  | cons e es ih =>
    intro r h
    rw [noEndCalled, List.all_cons, Bool.and_eq_true] at h
    have he : ∀ t c, e ≠ TraceEvent.endEv t c := by
      intro t c hte
      subst hte
      simp at h
    have hstep := applyEvent_total_ct r e he
    have hrest := ih (applyEvent r e) h.2
    simp only [runFrom] at hrest
    simp only [runFrom, List.foldl_cons]
    exact ⟨hrest.1.trans hstep.1, hrest.2.trans hstep.2⟩

/-- A run from the zero value with no `End` call has `total = 0`. -/
lemma run_total_eq_zero (es : List TraceEvent) (h : noEndCalled es = true) :
    (run es).total = 0 := by
  simp only [run]
  rw [(runFrom_total_ct es Result.init h).1]
  rfl

/-- A run from the zero value with no `End` call has
`contentTransfer = 0`. -/
lemma run_ct_eq_zero (es : List TraceEvent) (h : noEndCalled es = true) :
    (run es).contentTransfer = 0 := by
  simp only [run]
  rw [(runFrom_total_ct es Result.init h).2]
  rfl

/-- A run from the zero value always has `t5 = 0`. -/
lemma run_t5_eq_zero (es : List TraceEvent) : (run es).t5 = 0 := by
  simp only [run]
  rw [runFrom_t5]
  rfl

/-- Counterexample to claim C6: `End` does not use its explicit time
argument.  On the reachable state with `dnsStart = 2` and
`transferStart = 3`, calling `End` with argument `10` at clock instant
`20` stores `contentTransfer = 17` and `total = 18`, not the claimed
`10 - 3 = 7` and `10 - 2 = 8`. -/
theorem c6_counterexample :
    (run preEndEvents).dnsStart = 2 ∧
    (run preEndEvents).transferStart = 3 ∧
    (Result.End (run preEndEvents) 10 20).contentTransfer = 17 ∧
    (Result.End (run preEndEvents) 10 20).total = 18 ∧
    ¬((Result.End (run preEndEvents) 10 20).contentTransfer = (10 : Int) - 3 ∧
      (Result.End (run preEndEvents) 10 20).total = (10 : Int) - 2) := by
  decide

/-- Claim C6 as amended: for every `Result` with `dnsStart` set, `End`
called at clock instant `clk` stores `contentTransfer = clk −
transferStart` and `total = clk − dnsStart`, where `clk` is the instant
`time.Since` observes when `End` executes; the explicit time argument is
ignored (the result does not depend on it).  The stored values are final:
no later lifecycle callback other than another `End` call changes them. -/
theorem c6_amended (r : Result) (t t' clk : Nat) (h : r.dnsStart ≠ 0) :
    (r.End t clk).contentTransfer = (clk : Int) - (r.transferStart : Int) ∧
    (r.End t clk).total = (clk : Int) - (r.dnsStart : Int) ∧
    r.End t clk = r.End t' clk ∧
    (∀ e : TraceEvent, (∀ u v, e ≠ .endEv u v) →
      (applyEvent (r.End t clk) e).total = (r.End t clk).total ∧
      (applyEvent (r.End t clk) e).contentTransfer =
        (r.End t clk).contentTransfer) := by
  refine ⟨?_, ?_, ?_, ?_⟩
  · simp [Result.End, h]
  · simp [Result.End, h]
  · simp [Result.End, h]
  · intro e he
    exact applyEvent_total_ct (r.End t clk) e he

/-- Witness for C6's amended claim at the concrete reachable state with
`dnsStart = 2`, `transferStart = 3`, argument `10`, clock `20`. -/
theorem c6_witness :
    (run preEndEvents).dnsStart ≠ 0 ∧
    (Result.End (run preEndEvents) 10 20).contentTransfer =
      (20 : Int) - ((run preEndEvents).transferStart : Int) ∧
    (Result.End (run preEndEvents) 10 20).total =
      (20 : Int) - ((run preEndEvents).dnsStart : Int) ∧
    Result.End (run preEndEvents) 10 20 = Result.End (run preEndEvents) 0 20 ∧
    (applyEvent (Result.End (run preEndEvents) 10 20) (.gotConnEv true)).total =
      (Result.End (run preEndEvents) 10 20).total := by
  have h := c6_amended (run preEndEvents) 10 0 20 (by decide)
  exact ⟨by decide, h.1, h.2.1, h.2.2.1,
    (h.2.2.2 (.gotConnEv true) (by simp)).1⟩

/-- Counterexample to claim C7: after `End` has run and stored
`contentTransfer = 0` (a zero-length transfer, clock `3` equal to
`transferStart`), the accessor does not return the stored value: at clock
`9` it returns the live estimate `9 − serverDone = 6`. -/
theorem c7_counterexample :
    zeroTransferResult.dnsStart ≠ 0 ∧
    zeroTransferResult.total = 1 ∧
    zeroTransferResult.contentTransfer = 0 ∧
    Result.ContentTransfer zeroTransferResult 9 = 6 ∧
    Result.ContentTransfer zeroTransferResult 9 ≠
      zeroTransferResult.contentTransfer := by
  decide

/-- Claim C7 as amended: before any `End` call the accessors return the
live estimates `clk − serverDone` and `clk − dnsStart` (and, being pure
functions of the record, mutate nothing); after `End` has stored a value,
the accessors return it whenever it is non-zero — a stored zero is
indistinguishable from the unfinalized state and yields the live estimate
instead. -/
theorem c7_amended (es : List TraceEvent) (h : noEndCalled es = true)
    (clk : Nat) (r : Result) :
    Result.ContentTransfer (run es) clk =
      (clk : Int) - ((run es).serverDone : Int) ∧
    Result.Total (run es) clk = (clk : Int) - ((run es).dnsStart : Int) ∧
    (r.contentTransfer ≠ 0 → Result.ContentTransfer r clk = r.contentTransfer) ∧
    (r.total ≠ 0 → Result.Total r clk = r.total) := by
  refine ⟨?_, ?_, ?_, ?_⟩
  · simp [Result.ContentTransfer, run_ct_eq_zero es h]
  · simp [Result.Total, run_total_eq_zero es h]
  · intro hne; simp [Result.ContentTransfer, hne]
  · intro hne; simp [Result.Total, hne]

/-- Witness for C7's amended claim: a live (unfinalized) run and a
finalized result with non-zero stored values. -/
theorem c7_witness :
    noEndCalled preEndEvents = true ∧
    finishedResult.contentTransfer ≠ 0 ∧
    finishedResult.total ≠ 0 ∧
    Result.ContentTransfer (run preEndEvents) 9 =
      (9 : Int) - ((run preEndEvents).serverDone : Int) ∧
    Result.Total (run preEndEvents) 9 =
      (9 : Int) - ((run preEndEvents).dnsStart : Int) ∧
    Result.ContentTransfer finishedResult 9 = finishedResult.contentTransfer ∧
    Result.Total finishedResult 9 = finishedResult.total := by
  have h := c7_amended preEndEvents (by decide) 9 finishedResult
  exact ⟨by decide, by decide, by decide, h.1, h.2.1,
    h.2.2.1 (by decide), h.2.2.2 (by decide)⟩

/-- Claim C8: on every `Result` reachable without calling `End`, the
fixed-width rendering prints the `Content transfer` and `Total` lines
with the `-` marker, and the compact rendering prints the
`ContentTransfer` and `Total` entries as `- ms` — never as `0 ms`. -/
theorem c8_unmeasured (es : List TraceEvent) (h : noEndCalled es = true) :
    (run es).contentTransferLine = "Content transfer:     - ms\n\n" ∧
    (run es).totalLine = "Total:             - ms\n" ∧
    (run es).compactEntry ("ContentTransfer", (run es).contentTransfer) =
      "ContentTransfer: - ms" ∧
    (run es).compactEntry ("Total", (run es).total) = "Total: - ms" := by
  have hto := run_total_eq_zero es h
  have ht5 := run_t5_eq_zero es
  refine ⟨?_, ?_, ?_, ?_⟩
  · simp [Result.contentTransferLine, hto]
    rfl
  · simp [Result.totalLine, hto]
    rfl
  · simp [Result.compactEntry, ht5]
  · simp [Result.compactEntry, ht5]

/-- Witness for C8 on a run with no `End` call. -/
theorem c8_witness :
    noEndCalled preEndEvents = true ∧
    (run preEndEvents).contentTransferLine = "Content transfer:     - ms\n\n" ∧
    (run preEndEvents).totalLine = "Total:             - ms\n" ∧
    (run preEndEvents).compactEntry
      ("ContentTransfer", (run preEndEvents).contentTransfer) =
      "ContentTransfer: - ms" ∧
    (run preEndEvents).compactEntry ("Total", (run preEndEvents).total) =
      "Total: - ms" := by
  have h := c8_unmeasured preEndEvents (by decide)
  exact ⟨by decide, h.1, h.2.1, h.2.2.1, h.2.2.2⟩

/-- Claim C9: no operation of the package assigns `t5`, so `t5` is zero
in every reachable state — even after `End` — and therefore the compact
rendering always prints the `ContentTransfer` and `Total` entries as the
`- ms` marker, whatever values they hold. -/
theorem c9_t5_never_set (es : List TraceEvent) (x y : Int) :
    (run es).t5 = 0 ∧
    (run es).compactEntry ("ContentTransfer", x) = "ContentTransfer: - ms" ∧
    (run es).compactEntry ("Total", y) = "Total: - ms" := by
  have ht5 := run_t5_eq_zero es
  exact ⟨ht5, by simp [Result.compactEntry, ht5], by simp [Result.compactEntry, ht5]⟩

/-- Claim C10: the `durations()` map binds the key `"Pretransfer"` to the
`Connect` field, not the `Pretransfer` field, so the compact rendering
reports the value of `Connect` under the `Pretransfer` label. -/
theorem c10_pretransfer_binding (r : Result) :
    (r.durations).lookup "Pretransfer" = some r.Connect ∧
    ("Pretransfer", r.Connect) ∈ r.durations ∧
    r.compactEntry ("Pretransfer", r.Connect) =
      "Pretransfer: " ++ toString (msOf r.Connect) ++ " ms" := by
  refine ⟨?_, ?_, ?_⟩
  · rfl
  · simp [Result.durations]
  · have hne : ¬(("Pretransfer" = "ContentTransfer" ∨ "Pretransfer" = "Total") ∧
        r.t5 = 0) := by
      rintro ⟨hk | hk, -⟩ <;> simp at hk
    simp [Result.compactEntry, hne]

end Httpstat
